import Mathlib

/-!
Verification development for the oc2pg Oracle→Postgres migration prototype.

Identifiers and SQL text are modelled as `List Char`; machine bytes as `Nat`
values below 256; 64-bit words as `Nat` with explicit reduction modulo `2^64`.
Stateful code (the `NameMapper` registry, the DDL emitters that thread it,
the per-table load loop) is embedded by explicit state passing; the unbounded
`while` loop in `NameMapper.pg_ident` is embedded with fuel, returning
`Option` (`none` when the fuel bound is exhausted).

The character-level operations (`strip`/`lower`) model Python's `str.strip`
and `str.lower` at ASCII fidelity: on ASCII input (the only input the
repository ever feeds them after normalization) they agree with Python
exactly.
-/

namespace Oc2pg

/-- Identifiers and SQL text, as lists of characters. -/
abbrev Ident := List Char

/-- First-match association-list lookup, modelling Python `dict` access for
dictionaries that are only ever extended with fresh keys (newest first). -/
def alookup {α β : Type} [DecidableEq α] (k : α) : List (α × β) → Option β
  | [] => none
  | (k', v) :: rest => if k = k' then some v else alookup k rest

/-! ### blake2b (the `hashlib.blake2b(·, digest_size=4)` primitive used by
`NameMapper._shorten`), per RFC 7693, unkeyed, 4-byte digest. -/

/-- `2^64`, the 64-bit word modulus. -/
def M64 : Nat := 18446744073709551616

/-- Rotate a 64-bit word right by `n` bits. -/
def rotr (x n : Nat) : Nat := ((x >>> n) ||| (x <<< (64 - n))) % M64

/-- The blake2b initialization vector (the SHA-512 IVs). -/
def blakeIV : List Nat :=
  [0x6a09e667f3bcc908, 0xbb67ae8584caa73b, 0x3c6ef372fe94f82b, 0xa54ff53a5f1d36f1,
   0x510e527fade682d1, 0x9b05688c2b3e6c1f, 0x1f83d9abfb41bd6b, 0x5be0cd19137e2179]

/-- The blake2b message schedule permutations. -/
def blakeSigma : List (List Nat) :=
  [[0, 1, 2, 3, 4, 5, 6, 7, 8, 9, 10, 11, 12, 13, 14, 15],
   [14, 10, 4, 8, 9, 15, 13, 6, 1, 12, 0, 2, 11, 7, 5, 3],
   [11, 8, 12, 0, 5, 2, 15, 13, 10, 14, 3, 6, 7, 1, 9, 4],
   [7, 9, 3, 1, 13, 12, 11, 14, 2, 6, 5, 10, 4, 0, 15, 8],
   [9, 0, 5, 7, 2, 4, 10, 15, 14, 1, 11, 12, 6, 8, 3, 13],
   [2, 12, 6, 10, 0, 11, 8, 3, 4, 13, 7, 5, 15, 14, 1, 9],
   [12, 5, 1, 15, 14, 13, 4, 10, 0, 7, 6, 3, 9, 2, 8, 11],
   [13, 11, 7, 14, 12, 1, 3, 9, 5, 0, 15, 4, 8, 6, 2, 10],
   [6, 15, 14, 9, 11, 3, 0, 8, 12, 2, 13, 7, 1, 4, 10, 5],
   [10, 2, 8, 4, 7, 6, 1, 5, 15, 11, 9, 14, 3, 12, 13, 0]]

/-- The blake2b G mixing function on the 16-word working vector. -/
def gmix (v : List Nat) (a b c d x y : Nat) : List Nat :=
  let va := (v.getD a 0 + v.getD b 0 + x) % M64
  let vd := rotr ((v.getD d 0) ^^^ va) 32
  let vc := (v.getD c 0 + vd) % M64
  let vb := rotr ((v.getD b 0) ^^^ vc) 24
  let va' := (va + vb + y) % M64
  let vd' := rotr (vd ^^^ va') 16
  let vc' := (vc + vd') % M64
  let vb' := rotr (vb ^^^ vc') 63
  ((((v.set a va').set b vb').set c vc').set d vd')

/-- One blake2b round with message words `m` and schedule row `s`. -/
def blakeRound (m : List Nat) (v : List Nat) (s : List Nat) : List Nat :=
  let mi := fun i => m.getD (s.getD i 0) 0
  let v := gmix v 0 4 8 12 (mi 0) (mi 1)
  let v := gmix v 1 5 9 13 (mi 2) (mi 3)
  let v := gmix v 2 6 10 14 (mi 4) (mi 5)
  let v := gmix v 3 7 11 15 (mi 6) (mi 7)
  let v := gmix v 0 5 10 15 (mi 8) (mi 9)
  let v := gmix v 1 6 11 12 (mi 10) (mi 11)
  let v := gmix v 2 7 8 13 (mi 12) (mi 13)
  gmix v 3 4 9 14 (mi 14) (mi 15)

/-- Little-endian word `j` of a (zero-extended) 128-byte block. -/
def wordAt (block : List Nat) (j : Nat) : Nat :=
  block.getD (8*j) 0 + block.getD (8*j+1) 0 * 2^8 + block.getD (8*j+2) 0 * 2^16 +
  block.getD (8*j+3) 0 * 2^24 + block.getD (8*j+4) 0 * 2^32 + block.getD (8*j+5) 0 * 2^40 +
  block.getD (8*j+6) 0 * 2^48 + block.getD (8*j+7) 0 * 2^56

/-- The 16 message words of a block (missing bytes read as the zero padding). -/
def blockWords (block : List Nat) : List Nat := (List.range 16).map (wordAt block)

/-- The blake2b compression function `F(h, m, t, f)`. -/
def blakeCompress (h : List Nat) (m : List Nat) (t : Nat) (f : Bool) : List Nat :=
  let v0 := h ++ blakeIV
  let v1 := v0.set 12 ((v0.getD 12 0) ^^^ (t % M64))
  let v2 := v1.set 13 ((v1.getD 13 0) ^^^ (t / M64 % M64))
  let v3 := if f then v2.set 14 ((v2.getD 14 0) ^^^ (M64 - 1)) else v2
  let v := (List.range 12).foldl (fun w r => blakeRound m w (blakeSigma.getD (r % 10) [])) v3
  (List.range 8).map (fun i => (h.getD i 0) ^^^ ((v.getD i 0) ^^^ (v.getD (i+8) 0)))

/-- Structural worker for `chunk128`: the fuel starts at the byte count and
strictly dominates the number of 128-byte steps, so it never runs out. -/
def chunk128Aux : Nat → List Nat → List (List Nat)
  | 0, _ => []
  | _ + 1, [] => []
  | fuel + 1, b :: bs => (b :: bs).take 128 :: chunk128Aux fuel ((b :: bs).drop 128)

/-- Split a byte string into 128-byte blocks (empty input gives no blocks). -/
def chunk128 (bs : List Nat) : List (List Nat) := chunk128Aux bs.length bs

/-- Process the blocks: every non-final block is compressed with the running
byte count, the final block with the total length and the final flag. -/
def blakeLoop (h : List Nat) (bs : List (List Nat)) (done : Nat) : List Nat :=
  match bs with
  | [] => h
  | [b] => blakeCompress h (blockWords b) (done + b.length) true
  | b :: rest => blakeLoop (blakeCompress h (blockWords b) (done + 128) false) rest (done + 128)

/-- blake2b state words for an unkeyed hash of `msg` with digest size `nn`:
`h0 = IV0 xor 0x01010000 xor nn`, one all-zero block when the message is
empty. -/
def blake2bWords (nn : Nat) (msg : List Nat) : List Nat :=
  let h0 := ((blakeIV.getD 0 0) ^^^ (0x01010000 + nn)) :: blakeIV.drop 1
  match chunk128 msg with
  | [] => blakeLoop h0 [[]] 0
  | b :: rest => blakeLoop h0 (b :: rest) 0

/-- The 4-byte blake2b digest: the first 4 bytes of the little-endian
serialization of the state, i.e. the low 4 bytes of the first state word. -/
def blake2bDigest4 (msg : List Nat) : List Nat :=
  let w := (blake2bWords 4 msg).getD 0 0
  [w % 256, w / 2^8 % 256, w / 2^16 % 256, w / 2^24 % 256]

/-- Lowercase hexadecimal digit for `n < 16`. -/
def hexDigit (n : Nat) : Char :=
  if n < 10 then Char.ofNat (48 + n) else Char.ofNat (87 + n)

/-- Two lowercase hex digits of a byte. -/
def hexByte (b : Nat) : List Char := [hexDigit (b / 16 % 16), hexDigit (b % 16)]

/-- `hashlib.blake2b(msg, digest_size=4).hexdigest()`: 8 lowercase hex chars. -/
def blake2bHex4 (msg : List Nat) : Ident := (blake2bDigest4 msg).flatMap hexByte

/-- UTF-8 encoding of one character. -/
def utf8Char (c : Char) : List Nat :=
  let n := c.toNat
  if n < 0x80 then [n]
  else if n < 0x800 then [0xC0 + n / 2^6, 0x80 + n % 2^6]
  else if n < 0x10000 then [0xE0 + n / 2^12, 0x80 + n / 2^6 % 2^6, 0x80 + n % 2^6]
  else [0xF0 + n / 2^18, 0x80 + n / 2^12 % 2^6, 0x80 + n / 2^6 % 2^6, 0x80 + n % 2^6]

/-- UTF-8 encoding of a string (`str.encode('utf-8')`). -/
def utf8Encode (s : Ident) : List Nat := s.flatMap utf8Char

/-! ### NameMapper (`src/ddl_emit.py`) -/

/-- `PG_MAX_IDENT = 63`. -/
def PG_MAX_IDENT : Nat := 63

/-- `BIGINT_MAX = 9223372036854775807`. -/
def BIGINT_MAX : Int := 9223372036854775807

/-- ASCII whitespace, the characters `str.strip` removes on ASCII input. -/
def isWs (c : Char) : Bool :=
  c = ' ' || c = '\t' || c = '\n' || c = '\x0d' || c = '\x0b' || c = '\x0c'

/-- Python `str.strip()` (ASCII whitespace). -/
def pyStrip (s : Ident) : Ident :=
  ((s.dropWhile isWs).reverse.dropWhile isWs).reverse

/-- A character the normalizer keeps: `[a-z0-9_]`. -/
def isIdentChar (c : Char) : Bool :=
  ('a' ≤ c && c ≤ 'z') || ('0' ≤ c && c ≤ '9') || c = '_'

/-- A character allowed to lead an identifier: `[a-z_]`. -/
def isHeadChar (c : Char) : Bool := ('a' ≤ c && c ≤ 'z') || c = '_'

/-- `NameMapper._normalize`: strip, lowercase, replace every character
outside `[a-z0-9_]` with `_`, prefix `_` when empty or not led by `[a-z_]`. -/
def normalize (name : Ident) : Ident :=
  let n := (pyStrip name).map Char.toLower
  let n := n.map (fun c => if isIdentChar c then c else '_')
  match n with
  | [] => ['_']
  | c :: _ => if isHeadChar c then n else '_' :: n

/-- `NameMapper._shorten`: identity up to 63 characters, otherwise truncate
and append `_` plus the 8-hex-char blake2b-4 digest of the whole input. -/
def shorten (n : Ident) : Ident :=
  if n.length ≤ PG_MAX_IDENT then n
  else
    let h := blake2bHex4 (utf8Encode n)
    n.take (PG_MAX_IDENT - 1 - h.length) ++ '_' :: h

/-- The mapper state: `map` (original → target) and `used` (target →
original), newest entries first. -/
structure NameMapper where
  map : List (Ident × Ident)
  used : List (Ident × Ident)
deriving DecidableEq

/-- A freshly constructed `NameMapper()`. -/
def NameMapper.empty : NameMapper := ⟨[], []⟩

/-- The collision candidate of iteration `i`:
`_shorten(base[: max(0, PG_MAX_IDENT - len(suffix))] + suffix)` with
`suffix = "_" + str(i)`. -/
def candidate (base : Ident) (i : Nat) : Ident :=
  let suffix := '_' :: Nat.toDigits 10 i
  shorten (base.take (PG_MAX_IDENT - suffix.length) ++ suffix)

/-- The `while n in self.used and self.used[n] != original` loop of
`pg_ident`, embedded with fuel; `none` when the fuel bound is exhausted. -/
def disambig (used : List (Ident × Ident)) (original base : Ident) :
    Nat → Nat → Ident → Option Ident
  | 0, _, _ => none
  | fuel + 1, i, n =>
    match alookup n used with
    | none => some n
    | some o =>
      if o = original then some n
      else disambig used original base fuel (i + 1) (candidate base i)

/-- `NameMapper.pg_ident`: memoized lookup, normalize-and-shorten, collision
disambiguation, then registration in both directions. -/
def pg_ident (m : NameMapper) (original : Ident) : Option (Ident × NameMapper) :=
  match alookup original m.map with
  | some t => some (t, m)
  | none =>
    match disambig m.used original (shorten (normalize original))
        (m.used.length + 1) 1 (shorten (normalize original)) with
    | none => none
    | some n => some (n, ⟨(original, n) :: m.map, (n, original) :: m.used⟩)

/-- The `_RESERVED` word list. -/
def RESERVED : List Ident :=
  [("offset").toList, ("limit").toList, ("user").toList, ("schema").toList,
   ("table").toList, ("column").toList, ("order").toList, ("group").toList,
   ("primary").toList, ("foreign").toList, ("unique").toList,
   ("constraint").toList, ("references").toList, ("timestamp").toList,
   ("type").toList, ("name").toList, ("value").toList, ("values").toList]

/-- The `_NEEDS_QUOTE` regex `[^a-z0-9_]|^[^a-z_]|^[0-9]` as a search: some
character outside `[a-z0-9_]`, or a first character outside `[a-z_]`. -/
def needsQuoteRe (ident : Ident) : Bool :=
  ident.any (fun c => !(isIdentChar c)) ||
  (match ident with
   | [] => false
   | c :: _ => !(isHeadChar c))

/-- `NameMapper.quote`: `""` for empty input; wrap in double quotes (with
inner quotes doubled) when the regex matches or the lowercased identifier is
reserved; otherwise return the identifier bare. -/
def quote (ident : Ident) : Ident :=
  if ident = [] then ['"', '"']
  else if needsQuoteRe ident || (ident.map Char.toLower) ∈ RESERVED then
    '"' :: ident.flatMap (fun c => if c = '"' then ['"', '"'] else [c]) ++ ['"']
  else ident

/-! ### Type Map (`src/type_map.py`) -/

/-- The module-level `dict` of `type_map.py`, in source order. -/
def typeDict : List (String × String) :=
  [("NUMBER", "numeric"), ("VARCHAR2", "varchar"), ("NVARCHAR2", "char"),
   ("CHAR", "char"), ("NCHAR", "char"), ("DATE", "timestamp(0)"),
   ("INTEGER", "integer"), ("INT", "integer"), ("SMALLINT", "smallint"),
   ("DOUBLE", "double precision"), ("LONG", "text"),
   ("FLOAT", "double precision"), ("BINARY_FLOAT", "real"),
   ("BINARY_DOUBLE", "real"), ("RAW", "bytea"), ("TIMESTAMP", "timestamp"),
   ("BLOB", "bytea"), ("CLOB", "text"), ("NCLOB", "text"), ("BFILE", "bytea"),
   ("ROWID", "ctid"), ("UROWID", "UUID"), ("CHARACTER", "char"),
   ("XMLType", "xml"), ("SDO_Geometry", "geometry"),
   ("SDO_Topo_Geometry", "geometry"), ("SDO_GeoRaster", "geometry"),
   ("BOOLEAN", "boolean"), ("JSON", "jsonb")]

/-- How a Python f-string renders an optional number: `None` for `None`. -/
def pyShow : Option Int → String
  | some i => toString i
  | none => "None"

/-- `type_map.map(ora_type, precision, scale)`: `None` for unknown types;
`base(precision,scale)` when both are non-null; `base(precision)` when
`scale` is non-null (note: the code tests `scale`, not `precision`);
otherwise bare `base`. -/
def map_type (oraType : String) (precision scale : Option Int) : Option String :=
  match alookup oraType typeDict with
  | none => none
  | some mapping =>
    if precision.isSome && scale.isSome then
      some (mapping ++ "(" ++ pyShow precision ++ "," ++ pyShow scale ++ ")")
    else if scale.isSome then
      some (mapping ++ "(" ++ pyShow precision ++ ")")
    else some mapping

/-! ### CSV serialization (`src/data_loader.py`) -/

/-- The Python values a fetched row cell can hold, per the loader's dispatch
(a tagged variant, as §9 of the spec prescribes). -/
inductive PyVal where
  | vnone : PyVal
  | vint (i : Int) : PyVal
  | vstr (s : Ident) : PyVal
  | vbytes (b : List Nat) : PyVal
  | vdatetime (year month day hour minute second microsecond : Nat) : PyVal
  | vdate (year month day : Nat) : PyVal
  | vtime (hour minute second microsecond : Nat) : PyVal
deriving DecidableEq

/-- `NULL_SENTINEL = r"\N"`. -/
def NULL_SENTINEL : Ident := ['\\', 'N']

/-- Decimal digits of `n`, zero-padded on the left to width `w`. -/
def padNum (w n : Nat) : Ident :=
  let d := Nat.toDigits 10 n
  List.replicate (w - d.length) '0' ++ d

/-- `str(i)` for a Python int. -/
def intChars (i : Int) : Ident :=
  if i < 0 then '-' :: Nat.toDigits 10 i.natAbs else Nat.toDigits 10 i.natAbs

/-- `date.isoformat()`: `YYYY-MM-DD`. -/
def dateChars (y mo d : Nat) : Ident :=
  padNum 4 y ++ '-' :: padNum 2 mo ++ '-' :: padNum 2 d

/-- `time.isoformat()`: `HH:MM:SS`, plus `.ffffff` when microseconds are
non-zero. -/
def timeChars (h mi s us : Nat) : Ident :=
  padNum 2 h ++ ':' :: padNum 2 mi ++ ':' :: padNum 2 s ++
  (if us = 0 then [] else '.' :: padNum 6 us)

/-- `DataLoader._to_csv_field`: the per-value dispatch of the loader. -/
def to_csv_field : PyVal → Ident
  | .vnone => NULL_SENTINEL
  | .vint i => intChars i
  | .vdatetime y mo d h mi s us => dateChars y mo d ++ ' ' :: timeChars h mi s us
  | .vdate y mo d => dateChars y mo d
  | .vtime h mi s us => timeChars h mi s us
  | .vbytes b => '\\' :: 'x' :: b.flatMap hexByte
  | .vstr s => s

/-- Whether `csv.QUOTE_MINIMAL` quotes a field: it contains the delimiter,
the quote character, or a line-terminator character. -/
def needsCsvQuote (f : Ident) : Bool :=
  f.any (fun c => c = ',' || c = '"' || c = '\n' || c = '\x0d')

/-- One CSV field under minimal quoting with doubled inner quotes. -/
def csvField (f : Ident) : Ident :=
  if needsCsvQuote f then
    '"' :: f.flatMap (fun c => if c = '"' then ['"', '"'] else [c]) ++ ['"']
  else f

/-- `DataLoader._rows_to_csv_bytes`: each row's fields joined by `,` and
terminated by `\n`, the whole payload UTF-8 encoded. -/
def rows_to_csv_bytes (rows : List (List PyVal)) : List Nat :=
  utf8Encode (rows.flatMap (fun row =>
    List.intercalate [','] (row.map (fun v => csvField (to_csv_field v))) ++ ['\n']))

/-! ### Load statistics (`DataLoader.load_table` / `load_schema`) -/

/-- One batch of the per-table COPY loop together with the outcome of its
`cp.write`: encoding is total in this model (every `PyVal` serializes), so a
batch failure — encode or write — is modelled by `writeOk = false`. -/
structure BatchRun where
  batch : List (List PyVal)
  writeOk : Bool

/-- The per-table statistics dict. -/
structure LoadStats where
  status : String
  rows : Nat
  failedBatches : Nat
deriving DecidableEq

/-- The batch loop of `load_table`: a successful batch adds its row count,
a failed one increments `failed_batches`; the final dict always carries
`status = "ok"`. -/
def load_table (runs : List BatchRun) : LoadStats :=
  let acc := runs.foldl
    (fun (acc : Nat × Nat) r =>
      if r.writeOk then (acc.1 + r.batch.length, acc.2) else (acc.1, acc.2 + 1))
    (0, 0)
  { status := "ok", rows := acc.1, failedBatches := acc.2 }

/-- One entry of `load_schema`'s result: a table whose `load_table` raised is
recorded as `status = "error"`, otherwise `load_table`'s dict is stored. -/
def load_schema_entry (outcome : Except String (List BatchRun)) : LoadStats :=
  match outcome with
  | .ok runs => load_table runs
  | .error _ => { status := "error", rows := 0, failedBatches := 0 }

/-! ### CLI table specs (`src/cli.py`) -/

/-- `config.TableSpec`, restricted to the fields `make_tablespecs` sets. -/
structure TableSpec where
  owner : Ident
  name : Ident
  columns : List Ident
  pg_schema : Ident
deriving DecidableEq

/-- `cli.make_tablespecs`: the target-side table and column names handed to
the loader are the plain `.lower()` of the Oracle names, in discovered
order. -/
def make_tablespecs (owner pgSchema : Ident)
    (tableDefs : List (Ident × List Ident)) : List TableSpec :=
  tableDefs.map (fun td =>
    ⟨owner, td.1.map Char.toLower, td.2.map (fun c => c.map Char.toLower), pgSchema⟩)

/-! ### DDL emitters (`src/ddl_emit.py`), threading the shared NameMapper -/

/-- `_table_ident`: quote the mapped table name, then prefix the quoted
mapped schema when a schema is given. -/
def table_ident (nm : NameMapper) (tableName : Ident) (schema : Option Ident) :
    Option (Ident × NameMapper) :=
  match pg_ident nm tableName with
  | none => none
  | some (t, nm1) =>
    match schema with
    | none => some (quote t, nm1)
    | some sch =>
      match pg_ident nm1 sch with
      | none => none
      | some (s, nm2) => some (quote s ++ '.' :: quote t, nm2)

/-- Map and quote a list of column names, threading the mapper. -/
def mapQuoteAll (nm : NameMapper) : List Ident → Option (List Ident × NameMapper)
  | [] => some ([], nm)
  | c :: cs =>
    match pg_ident nm c with
    | none => none
    | some (t, nm1) =>
      match mapQuoteAll nm1 cs with
      | none => none
      | some (ts, nm2) => some (quote t :: ts, nm2)

/-- A foreign-key dict as `emit_constraints` expects it. -/
structure FK where
  constraint_name : Ident
  table_name : Ident
  columns : List Ident
  r_table_name : Ident
  r_columns : List Ident
  delete_rule : Option Ident

/-- `(fk.get("delete_rule") or "NO ACTION").upper()`: `None` and the empty
string both fall back to `NO ACTION`. -/
def deleteRule (dr : Option Ident) : Ident :=
  match dr with
  | none => ("NO ACTION").toList
  | some d => if d = [] then ("NO ACTION").toList else d.map Char.toUpper

/-- The loop body of `emit_constraints` for one foreign key. -/
def emitConstraint (nm : NameMapper) (schema : Option Ident) (deferrable : Bool)
    (fk : FK) : Option (Ident × NameMapper) :=
  match table_ident nm fk.table_name schema with
  | none => none
  | some (tbl, nm1) =>
    match table_ident nm1 fk.r_table_name schema with
    | none => none
    | some (rtbl, nm2) =>
      match pg_ident nm2 fk.constraint_name with
      | none => none
      | some (cn, nm3) =>
        match mapQuoteAll nm3 fk.columns with
        | none => none
        | some (cols, nm4) =>
          match mapQuoteAll nm4 fk.r_columns with
          | none => none
          | some (rcols, nm5) =>
            let dr := deleteRule fk.delete_rule
            let suffix :=
              (if dr ≠ ("NO ACTION").toList then (" ON DELETE ").toList ++ dr else []) ++
              (if deferrable then (" DEFERRABLE INITIALLY DEFERRED").toList else [])
            some (("ALTER TABLE ").toList ++ tbl ++ (" ADD CONSTRAINT ").toList ++
                  quote cn ++ (" FOREIGN KEY (").toList ++
                  List.intercalate (", ").toList cols ++ (") REFERENCES ").toList ++
                  rtbl ++ (" (").toList ++ List.intercalate (", ").toList rcols ++
                  [')'] ++ suffix ++ [';'], nm5)

/-- `emit_constraints`: one ALTER TABLE statement per foreign key, threading
the shared mapper (default `deferrable=True`). -/
def emit_constraints (fks : List FK) (schema : Option Ident) (deferrable : Bool)
    (nm : NameMapper) : Option (List Ident × NameMapper) :=
  match fks with
  | [] => some ([], nm)
  | fk :: rest =>
    match emitConstraint nm schema deferrable fk with
    | none => none
    | some (stmt, nm1) =>
      match emit_constraints rest schema deferrable nm1 with
      | none => none
      | some (stmts, nm2) => some (stmt :: stmts, nm2)

/-- A sequence dict as `emit_sequences` expects it (numeric fields already
numbers, as the Oracle introspector delivers them). -/
structure SeqDef where
  sequence_name : Ident
  increment_by : Option Int
  min_value : Option Int
  max_value : Option Int
  cache_size : Option Int
  cycle_flag : Option Ident

/-- The loop body of `emit_sequences` for one sequence: INCREMENT/MINVALUE
when present, MAXVALUE only when within the signed 64-bit bound, CACHE
clamped to at least 1 (default 1), CYCLE per the `Y` flag, never ORDER. -/
def emitSequence (nm : NameMapper) (schema : Option Ident) (s : SeqDef) :
    Option (Ident × NameMapper) :=
  match pg_ident nm s.sequence_name with
  | none => none
  | some (sn, nm1) =>
    let sname := quote sn
    match (match schema with
           | none => some (sname, nm1)
           | some sch =>
             match pg_ident nm1 sch with
             | none => none
             | some (sc, nm2) => some (quote sc ++ '.' :: sname, nm2)) with
    | none => none
    | some (fq, nm') =>
      let parts := [("CREATE SEQUENCE IF NOT EXISTS ").toList ++ fq]
      let parts := parts ++ (match s.increment_by with
        | none => []
        | some inc => [("INCREMENT BY ").toList ++ intChars inc])
      let parts := parts ++ (match s.min_value with
        | none => []
        | some mn => [("MINVALUE ").toList ++ intChars mn])
      let parts := parts ++ (match s.max_value with
        | none => []
        | some mx => if mx ≤ BIGINT_MAX then [("MAXVALUE ").toList ++ intChars mx] else [])
      let cacheI := match s.cache_size with
        | none => (1 : Int)
        | some c => c
      let cacheI := if cacheI < 1 then 1 else cacheI
      let parts := parts ++ [("CACHE ").toList ++ intChars cacheI]
      let parts := parts ++
        [if s.cycle_flag = some (("Y").toList) then ("CYCLE").toList else ("NO CYCLE").toList]
      some (List.intercalate [' '] parts ++ [';'], nm')

/-- `emit_sequences`: one CREATE SEQUENCE statement per definition. -/
def emit_sequences (seqs : List SeqDef) (schema : Option Ident)
    (nm : NameMapper) : Option (List Ident × NameMapper) :=
  match seqs with
  | [] => some ([], nm)
  | s :: rest =>
    match emitSequence nm schema s with
    | none => none
    | some (stmt, nm1) =>
      match emit_sequences rest schema nm1 with
      | none => none
      | some (stmts, nm2) => some (stmt :: stmts, nm2)

/-! ### Mapper invariants -/

/-- Well-formedness of a mapper state: `map` and `used` are inverse
registries and every registered target respects the length bound. -/
def WF (m : NameMapper) : Prop :=
  (∀ o t, alookup o m.map = some t → alookup t m.used = some o) ∧
  (∀ t o, alookup t m.used = some o → alookup o m.map = some t) ∧
  (∀ o t, alookup o m.map = some t → t.length ≤ 63)

/-- The mapper states a single `NameMapper` instance can be in: the fresh
state, and any state reached by a successful `pg_ident` call. -/
inductive Reach : NameMapper → Prop where
  | init : Reach NameMapper.empty
  | step {m : NameMapper} {x t : Ident} {m' : NameMapper} :
      Reach m → pg_ident m x = some (t, m') → Reach m'

/-- The S1 long identifier of the spec (73 characters). -/
def longS1 : Ident :=
  ("This_Is_A_Very_Long_Table_Name_Exceeding_Sixty_Three_Characters_For_Sure").toList

/-- The mapper state after registering `"a"` in a fresh instance. -/
def mapperA : NameMapper :=
  ⟨[(("a").toList, ("a").toList)], [(("a").toList, ("a").toList)]⟩

/-- The mapper state after registering `"a"` then `"b"` in a fresh
instance. -/
def mapperAB : NameMapper :=
  ⟨[(("b").toList, ("b").toList), (("a").toList, ("a").toList)],
   [(("b").toList, ("b").toList), (("a").toList, ("a").toList)]⟩

/-! ## Supporting lemmas -/

/-- A blake2b-4 hexdigest always has 8 characters. -/
theorem blake2bHex4_length (msg : List Nat) : (blake2bHex4 msg).length = 8 := rfl

/-- `_shorten` never produces more than 63 characters. -/
theorem shorten_length_le (n : Ident) : (shorten n).length ≤ 63 := by
  unfold shorten
  by_cases h : n.length ≤ PG_MAX_IDENT
  · rw [if_pos h]
    simpa [PG_MAX_IDENT] using h
  · rw [if_neg h]
    simp only [PG_MAX_IDENT] at h ⊢
    simp [List.length_append, List.length_take, blake2bHex4_length]

/-- On input longer than 63 characters, `_shorten` keeps the first 54
characters and appends `_` plus the blake2b-4 hexdigest of the input. -/
theorem shorten_eq_of_long {n : Ident} (h : 63 < n.length) :
    shorten n = n.take 54 ++ '_' :: blake2bHex4 (utf8Encode n) := by
  unfold shorten
  rw [if_neg (by simp [PG_MAX_IDENT]; omega)]
  simp [blake2bHex4_length, PG_MAX_IDENT]

/-- On input longer than 63 characters, `_shorten` returns exactly 63
characters. -/
theorem shorten_length_of_long {n : Ident} (h : 63 < n.length) :
    (shorten n).length = 63 := by
  rw [shorten_eq_of_long h]
  simp [List.length_append, List.length_take, blake2bHex4_length]
  omega

/-- Collision candidates also respect the length bound. -/
theorem candidate_length_le (b : Ident) (i : Nat) : (candidate b i).length ≤ 63 := by
  unfold candidate
  exact shorten_length_le _

/-- The disambiguation loop only returns a name that is unused or already
bound to the original being registered. -/
theorem disambig_exit {used : List (Ident × Ident)} {o b : Ident} :
    ∀ {fuel i n n'}, disambig used o b fuel i n = some n' →
      alookup n' used = none ∨ alookup n' used = some o := by
  intro fuel
  induction fuel with
  | zero => intro i n n' h; simp [disambig] at h
  | succ f ih =>
    intro i n n' h
    unfold disambig at h
    split at h
    next hl =>
      simp only [Option.some.injEq] at h
      subst h
      exact .inl hl
    next o' hl =>
      split at h
      next ho =>
        simp only [Option.some.injEq] at h
        subst h
        exact .inr (ho ▸ hl)
      next ho => exact ih h

/-- Every name the disambiguation loop returns is the initial candidate or a
suffixed candidate. -/
theorem disambig_shape {used : List (Ident × Ident)} {o b : Ident} :
    ∀ {fuel i n n'}, disambig used o b fuel i n = some n' →
      n' = n ∨ ∃ j, n' = candidate b j := by
  intro fuel
  induction fuel with
  | zero => intro i n n' h; simp [disambig] at h
  | succ f ih =>
    intro i n n' h
    unfold disambig at h
    split at h
    next hl =>
      simp only [Option.some.injEq] at h
      exact .inl h.symm
    next o' hl =>
      split at h
      next ho =>
        simp only [Option.some.injEq] at h
        exact .inl h.symm
      next ho =>
        rcases ih h with rfl | hj
        · exact .inr ⟨i, rfl⟩
        · exact .inr hj

/-- Case analysis on a successful `pg_ident` call: either a memoized hit
that leaves the state unchanged, or a fresh registration prepending to both
registries. -/
theorem pg_ident_cases {m : NameMapper} {x t : Ident} {m' : NameMapper}
    (h : pg_ident m x = some (t, m')) :
    (alookup x m.map = some t ∧ m' = m) ∨
    (alookup x m.map = none ∧
     disambig m.used x (shorten (normalize x)) (m.used.length + 1) 1
       (shorten (normalize x)) = some t ∧
     m' = ⟨(x, t) :: m.map, (t, x) :: m.used⟩) := by
  unfold pg_ident at h
  split at h
  next t0 hl =>
    simp only [Option.some.injEq, Prod.mk.injEq] at h
    exact .inl ⟨h.1 ▸ hl, h.2.symm⟩
  next hl =>
    split at h
    next hd => exact absurd h (by simp)
    next n hd =>
      simp only [Option.some.injEq, Prod.mk.injEq] at h
      obtain ⟨h1, h2⟩ := h
      subst h1
      exact .inr ⟨hl, hd, h2.symm⟩

/-- The empty mapper is well-formed. -/
theorem wf_empty : WF NameMapper.empty := by
  refine ⟨?_, ?_, ?_⟩ <;> intro a b h <;> simp [alookup, NameMapper.empty] at h

/-- A successful `pg_ident` call preserves well-formedness. -/
theorem wf_step {m : NameMapper} {x t : Ident} {m' : NameMapper}
    (hw : WF m) (h : pg_ident m x = some (t, m')) : WF m' := by
  rcases pg_ident_cases h with ⟨_, rfl⟩ | ⟨hl, hd, rfl⟩
  · exact hw
  · have hu : alookup t m.used = none := by
      rcases disambig_exit hd with h0 | h1
      · exact h0
      · exact absurd (hw.2.1 _ _ h1) (by rw [hl]; exact Option.noConfusion)
    refine ⟨?_, ?_, ?_⟩
    · intro o t0 ho
      by_cases hox : o = x
      · subst hox
        simp [alookup] at ho
        subst ho
        simp [alookup]
      · simp only [alookup, if_neg hox] at ho
        have := hw.1 _ _ ho
        have ht0 : t0 ≠ t := by
          intro hh
          rw [hh, hu] at this
          exact Option.noConfusion this
        simp only [alookup, if_neg ht0]
        exact this
    · intro t0 o ho
      by_cases hot : t0 = t
      · subst hot
        simp [alookup] at ho
        subst ho
        simp [alookup]
      · simp only [alookup, if_neg hot] at ho
        have := hw.2.1 _ _ ho
        have hox : o ≠ x := by
          intro hh
          rw [hh, hl] at this
          exact Option.noConfusion this
        simp only [alookup, if_neg hox]
        exact this
    · intro o t0 ho
      by_cases hox : o = x
      · subst hox
        simp [alookup] at ho
        subst ho
        rcases disambig_shape hd with rfl | ⟨j, rfl⟩
        · exact shorten_length_le _
        · exact candidate_length_le _ _
      · simp only [alookup, if_neg hox] at ho
        exact hw.2.2 _ _ ho

/-- Every reachable mapper state is well-formed. -/
theorem reach_wf {m : NameMapper} (h : Reach m) : WF m := by
  induction h with
  | init => exact wf_empty
  | step _ hp ih => exact wf_step ih hp

/-- A repeated `pg_ident` call on the same original returns the first
result and leaves the state unchanged. -/
theorem pg_ident_again {m : NameMapper} {x t : Ident} {m' : NameMapper}
    (h : pg_ident m x = some (t, m')) : pg_ident m' x = some (t, m') := by
  rcases pg_ident_cases h with ⟨hl, rfl⟩ | ⟨_, _, rfl⟩
  · unfold pg_ident
    rw [hl]
  · unfold pg_ident
    simp [alookup]

/-- A successful `pg_ident` call on a well-formed state returns at most 63
characters. -/
theorem pg_ident_length {m : NameMapper} {x t : Ident} {m' : NameMapper}
    (hw : WF m) (h : pg_ident m x = some (t, m')) : t.length ≤ 63 := by
  rcases pg_ident_cases h with ⟨hl, _⟩ | ⟨_, hd, _⟩
  · exact hw.2.2 _ _ hl
  · rcases disambig_shape hd with rfl | ⟨j, rfl⟩
    · exact shorten_length_le _
    · exact candidate_length_le _ _

/-! ## Claim theorems -/

/-- C1: within a single `NameMapper` instance, `pg_ident` is a function —
calling it again with the same source identifier returns the same target —
and is injective over the registered inputs: two distinct registered source
identifiers never share a target identifier. -/
theorem pg_ident_function_and_injective (m : NameMapper) (hm : Reach m) :
    (∀ x t m', pg_ident m x = some (t, m') → pg_ident m' x = some (t, m')) ∧
    (∀ x y tx ty, alookup x m.map = some tx → alookup y m.map = some ty →
      x ≠ y → tx ≠ ty) := by
  refine ⟨fun x t m' h => pg_ident_again h, fun x y tx ty hx hy hxy heq => ?_⟩
  subst heq
  have h1 := (reach_wf hm).1 _ _ hx
  have h2 := (reach_wf hm).1 _ _ hy
  rw [h1] at h2
  exact hxy (Option.some.inj h2)

/-- C1 witness: after registering `"a"` then `"b"` in one instance, the
repeat call on `"a"` is stable and the two targets differ. -/
theorem pg_ident_function_and_injective_witness :
    pg_ident mapperAB (("a").toList) = some ((("a").toList), mapperAB) ∧
    ("a").toList ≠ ("b").toList := by
  have hr : Reach mapperAB :=
    Reach.step (m := mapperA) (x := ("b").toList) (t := ("b").toList)
      (Reach.step (m := NameMapper.empty) (x := ("a").toList) (t := ("a").toList)
        Reach.init (by decide)) (by decide)
  have h := pg_ident_function_and_injective mapperAB hr
  refine ⟨h.1 (("a").toList) (("a").toList) mapperAB (by decide), ?_⟩
  exact h.2 (("a").toList) (("b").toList) (("a").toList) (("b").toList)
    (by decide) (by decide) (by decide)

set_option maxRecDepth 100000 in
/-- C2 counterexample: in one instance, register `"a"×64` and then
`"A"×64` — a distinct original whose normalized form (64 characters,
exceeding 63) collides with the already-used target. The second call
returns a 63-character identifier whose tail (its last 9 characters,
`drop 54`) is the numeric-disambiguator tail `_e4a7aa_1`, not `_` followed
by the 8-hex blake2b digest of its normalized input, refuting the
unconditional hash-suffix claim. -/
theorem pg_ident_hash_suffix_cex :
    (pg_ident NameMapper.empty (List.replicate 64 'a')).map Prod.fst =
      some (List.replicate 54 'a' ++ ("_e4a7aadc").toList) ∧
    ((pg_ident NameMapper.empty (List.replicate 64 'a')).bind
        (fun p => pg_ident p.2 (List.replicate 64 'A'))).map Prod.fst =
      some (List.replicate 54 'a' ++ ("_e4a7aa_1").toList) ∧
    63 < (normalize (List.replicate 64 'A')).length ∧
    (List.replicate 54 'a' ++ ("_e4a7aa_1").toList).length = 63 ∧
    (List.replicate 54 'a' ++ ("_e4a7aa_1").toList).drop 54 ≠
      '_' :: blake2bHex4 (utf8Encode (normalize (List.replicate 64 'A'))) := by
  decide

/-- C2 amended: every target `pg_ident` returns has at most 63 characters;
and a registration of an identifier whose normalized form exceeds 63
characters that is fresh and collision-free (the shortened normalized form
is not already a used target) returns exactly 63 characters — the first 54
characters of the normalized form, `_`, and the 8-hex-character blake2b
4-byte digest of the normalized form. When that shortened form is already
used by a distinct original, the result still has 63 characters but ends in
a numeric disambiguator instead (see the counterexample). -/
theorem pg_ident_length_bound_and_hash_suffix :
    (∀ m x t m', Reach m → pg_ident m x = some (t, m') → t.length ≤ 63) ∧
    (∀ m x, alookup x m.map = none →
      alookup (shorten (normalize x)) m.used = none →
      63 < (normalize x).length →
      pg_ident m x = some (shorten (normalize x),
        ⟨(x, shorten (normalize x)) :: m.map,
         (shorten (normalize x), x) :: m.used⟩) ∧
      shorten (normalize x) =
        (normalize x).take 54 ++ '_' :: blake2bHex4 (utf8Encode (normalize x)) ∧
      (shorten (normalize x)).length = 63) := by
  constructor
  · intro m x t m' hm h
    exact pg_ident_length (reach_wf hm) h
  · intro m x hl hu h63
    refine ⟨?_, shorten_eq_of_long h63, shorten_length_of_long h63⟩
    simp [pg_ident, hl, disambig, hu]

/-- C2 witness: the S1 identifier (73 characters) satisfies the hypotheses
from a fresh mapper and comes out 63 characters long with the hash suffix;
`"a"` illustrates the bound on a short input. -/
theorem pg_ident_length_bound_and_hash_suffix_witness :
    63 < (normalize longS1).length ∧
    (shorten (normalize longS1)).length = 63 ∧
    shorten (normalize longS1) =
      (normalize longS1).take 54 ++ '_' :: blake2bHex4 (utf8Encode (normalize longS1)) ∧
    (("a").toList).length ≤ 63 := by
  have hB := pg_ident_length_bound_and_hash_suffix.2 NameMapper.empty longS1
    rfl rfl (by decide)
  have hA := pg_ident_length_bound_and_hash_suffix.1 NameMapper.empty (("a").toList)
    (("a").toList) mapperA Reach.init (by decide)
  exact ⟨by decide, hB.2.2, hB.2.1, hA⟩

/-- C9 counterexample: from a fresh instance, `pg_ident "A"` returns `a`;
feeding `a` back into the same instance hits the collision branch (since
`a` is used for the distinct original `A`) and returns `a_1`, so
`pg_ident (pg_ident x)` differs from `pg_ident x`. -/
theorem pg_ident_not_idempotent_cex :
    pg_ident NameMapper.empty (("A").toList) =
      some ((("a").toList),
        ⟨[(("A").toList, ("a").toList)], [(("a").toList, ("A").toList)]⟩) ∧
    pg_ident (⟨[(("A").toList, ("a").toList)],
        [(("a").toList, ("A").toList)]⟩ : NameMapper) (("a").toList) =
      some ((("a_1").toList),
        ⟨[(("a").toList, ("a_1").toList), (("A").toList, ("a").toList)],
         [(("a_1").toList, ("a").toList), (("a").toList, ("A").toList)]⟩) ∧
    ("a_1").toList ≠ ("a").toList := by decide

/-- C9 amended: `pg_ident` is stable under re-registration of the same
original, and feeding the result back returns it unchanged whenever the
returned target equals the input; when the target differs from its
original, the re-fed call may allocate a new suffixed identifier. -/
theorem pg_ident_idempotent_on_fixed (m : NameMapper) (x t : Ident)
    (m' : NameMapper) (h : pg_ident m x = some (t, m')) (hfix : t = x) :
    pg_ident m' t = some (t, m') := by
  subst hfix
  exact pg_ident_again h

/-- C9 witness: `"a"` is its own target, and re-feeding it is stable. -/
theorem pg_ident_idempotent_on_fixed_witness :
    pg_ident mapperA (("a").toList) = some ((("a").toList), mapperA) :=
  pg_ident_idempotent_on_fixed NameMapper.empty (("a").toList) (("a").toList)
    mapperA (by decide) rfl

/-- C3: the precision/scale branch of `type_map.map` tests `scale`, not
`precision`: with only precision present (scale null) it emits the bare
base type — contradicting the claimed `base(precision)` — and with only
scale present it emits `base(None)`; both-present and neither-present
behave as claimed. -/
theorem map_type_scale_branch_divergence :
    map_type "VARCHAR2" (some 50) none = some "varchar" ∧
    map_type "NUMBER" none (some 0) = some "numeric(None)" ∧
    map_type "NUMBER" (some 10) (some 2) = some "numeric(10,2)" ∧
    map_type "NUMBER" none none = some "numeric" := by
  refine ⟨rfl, rfl, rfl, rfl⟩

/-- C4: the type dictionary maps `NVARCHAR2` to `char`, not to the claimed
`varchar` (while `VARCHAR2` does map to `varchar`, and `CHAR`, `NCHAR`,
`CHARACTER` map to `char`). -/
theorem map_type_nvarchar2_divergence :
    map_type "NVARCHAR2" none none = some "char" ∧
    map_type "VARCHAR2" none none = some "varchar" ∧
    map_type "CHAR" none none = some "char" ∧
    map_type "NCHAR" none none = some "char" ∧
    map_type "CHARACTER" none none = some "char" ∧
    ("char" : String) ≠ "varchar" := by
  refine ⟨rfl, rfl, rfl, rfl, rfl, by decide⟩

/-- C7: the 5-value S5 row serializes to exactly the claimed byte sequence —
NULL as the 2-character sentinel, bytes as lowercase hex after a backslash-x
prefix, the datetime in ISO-8601 with a space separator, inner double
quotes doubled inside a quoted field — followed by a single newline. -/
theorem rows_to_csv_bytes_s5 :
    rows_to_csv_bytes [[PyVal.vint 1, PyVal.vstr (("he said \"hi\"").toList),
        PyVal.vnone, PyVal.vbytes [0, 255], PyVal.vdatetime 2024 1 2 3 4 5 0]] =
      ("1,\"he said \"\"hi\"\"\",\\N,\\x00ff,2024-01-02 03:04:05\n").toList.map Char.toNat ∧
    to_csv_field PyVal.vnone = NULL_SENTINEL ∧ NULL_SENTINEL.length = 2 := by
  decide

/-- C8: the identifiers the loader receives come from `make_tablespecs`,
which merely lowercases the Oracle names, while the DDL used
`pg_ident`-normalized names; on `ORDER ITEMS#1` the two disagree, so the
COPY statement would name a table the DDL never created. -/
theorem make_tablespecs_lower_divergence :
    make_tablespecs (("HR").toList) (("public").toList)
        [((("ORDER ITEMS#1").toList), [("CUST ID#").toList])] =
      [⟨("HR").toList, ("order items#1").toList, [("cust id#").toList],
        ("public").toList⟩] ∧
    (pg_ident NameMapper.empty (("ORDER ITEMS#1").toList)).map Prod.fst =
      some (("order_items_1").toList) ∧
    ("order items#1").toList ≠ ("order_items_1").toList := by decide

/-- The batch fold of `load_table` turns an all-failing run into one
failure count per batch and leaves the row count unchanged. -/
theorem load_fold_all_failed (runs : List BatchRun) :
    ∀ a b : Nat, (∀ r ∈ runs, r.writeOk = false) →
      runs.foldl
        (fun (acc : Nat × Nat) r =>
          if r.writeOk then (acc.1 + r.batch.length, acc.2) else (acc.1, acc.2 + 1))
        (a, b) = (a, b + runs.length) := by
  induction runs with
  | nil => intro a b _; simp
  | cons r rs ih =>
    intro a b h
    have hr : r.writeOk = false := h r (List.mem_cons_self r rs)
    simp only [List.foldl_cons, hr, Bool.false_eq_true, if_false]
    rw [ih a (b + 1) (fun r' hr' => h r' (List.mem_cons_of_mem r hr'))]
    simp [List.length_cons]
    omega

/-- C10: `load_table` always reports status `ok` when it returns — batch
failures only increment `failed_batches` — so a run whose every batch fails
still reports `ok` with 0 rows and one failed batch per batch; in
`load_schema`, status `error` is recorded exactly for tables whose
`load_table` raised. -/
theorem load_table_status_ok :
    (∀ runs : List BatchRun, (load_table runs).status = "ok") ∧
    (∀ runs : List BatchRun, (∀ r ∈ runs, r.writeOk = false) →
      (load_table runs).rows = 0 ∧ (load_table runs).failedBatches = runs.length) ∧
    (∀ runs : List BatchRun, (load_schema_entry (Except.ok runs)).status = "ok") ∧
    (∀ e : String, (load_schema_entry (Except.error e)).status = "error") := by
  refine ⟨fun runs => rfl, ?_, fun runs => rfl, fun e => rfl⟩
  intro runs h
  unfold load_table
  rw [load_fold_all_failed runs 0 0 h]
  simp

/-- C10 witness: a two-batch run in which both batches fail still returns
0 rows with 2 failed batches (and status is `ok` on a concrete run). -/
theorem load_table_status_ok_witness :
    (load_table [⟨[[PyVal.vint 1]], false⟩, ⟨[], false⟩]).rows = 0 ∧
    (load_table [⟨[[PyVal.vint 1]], false⟩, ⟨[], false⟩]).failedBatches = 2 ∧
    (load_table [⟨[[PyVal.vint 1]], false⟩, ⟨[], false⟩]).status = "ok" := by
  have h2 := load_table_status_ok.2.1 [⟨[[PyVal.vint 1]], false⟩, ⟨[], false⟩]
    (by decide)
  have h1 := load_table_status_ok.1 [⟨[[PyVal.vint 1]], false⟩, ⟨[], false⟩]
  exact ⟨h2.1, h2.2, h1⟩

/-- C5: a source sequence with increment 1, max value `10^28`, cache 0,
cycle flag `Y` and no min value emits exactly
`CREATE SEQUENCE IF NOT EXISTS <name> INCREMENT BY 1 CACHE 1 CYCLE;` —
MAXVALUE is omitted because it exceeds `BIGINT_MAX`, CACHE is clamped up
to 1, and no ORDER/NO ORDER clause is emitted. -/
theorem emit_sequences_s3 (nm : NameMapper) (name n : Ident) (nm' : NameMapper)
    (h : pg_ident nm name = some (n, nm')) :
    emit_sequences
        [⟨name, some 1, none, some (10 ^ 28), some 0, some (("Y").toList)⟩]
        none nm =
      some ([("CREATE SEQUENCE IF NOT EXISTS ").toList ++ quote n ++
             (" INCREMENT BY 1 CACHE 1 CYCLE;").toList], nm') := by
  have hmx : ¬ ((10000000000000000000000000000 : Int) ≤ BIGINT_MAX) := by
    norm_num [BIGINT_MAX]
  simp only [emit_sequences, emitSequence, h]
  simp [hmx, intChars, List.intercalate]
  decide

/-- C5 witness: the concrete sequence `ORDERS_SEQ` from a fresh mapper. -/
theorem emit_sequences_s3_witness :
    emit_sequences
        [⟨("ORDERS_SEQ").toList, some 1, none, some (10 ^ 28), some 0,
          some (("Y").toList)⟩] none NameMapper.empty =
      some ([("CREATE SEQUENCE IF NOT EXISTS orders_seq INCREMENT BY 1 CACHE 1 CYCLE;").toList],
        ⟨[(("ORDERS_SEQ").toList, ("orders_seq").toList)],
         [(("orders_seq").toList, ("ORDERS_SEQ").toList)]⟩) := by
  rw [emit_sequences_s3 NameMapper.empty (("ORDERS_SEQ").toList)
    (("orders_seq").toList)
    ⟨[(("ORDERS_SEQ").toList, ("orders_seq").toList)],
     [(("orders_seq").toList, ("ORDERS_SEQ").toList)]⟩ (by decide)]
  decide

set_option maxRecDepth 16384 in
/-- C6 counterexample: `quote` leaves plain lowercase identifiers bare, so
the emitted FK statement for the S4 scenario carries no double quotes and
differs from the claimed fully-quoted statement. -/
theorem emit_constraints_s4_cex :
    (emit_constraints
        [⟨("FK_ORD_CUST").toList, ("ORDERS").toList, [("CUST_ID").toList],
          ("CUSTOMERS").toList, [("ID").toList], some (("CASCADE").toList)⟩]
        (some (("public").toList)) true NameMapper.empty).map Prod.fst ≠
      some [("ALTER TABLE \"public\".\"orders\" ADD CONSTRAINT fk_ord_cust FOREIGN KEY (\"cust_id\") REFERENCES \"public\".\"customers\" (\"id\") ON DELETE CASCADE DEFERRABLE INITIALLY DEFERRED;").toList] := by
  decide

set_option maxRecDepth 16384 in
/-- C6 amended: the S4 foreign key emits the claimed statement shape but
with every identifier unquoted, since `quote` only adds double quotes for
identifiers that need them (characters outside `[a-z0-9_]`, a leading
digit, or a reserved word), which none of these mapped identifiers do. -/
theorem emit_constraints_s4_amended :
    (emit_constraints
        [⟨("FK_ORD_CUST").toList, ("ORDERS").toList, [("CUST_ID").toList],
          ("CUSTOMERS").toList, [("ID").toList], some (("CASCADE").toList)⟩]
        (some (("public").toList)) true NameMapper.empty).map Prod.fst =
      some [("ALTER TABLE public.orders ADD CONSTRAINT fk_ord_cust FOREIGN KEY (cust_id) REFERENCES public.customers (id) ON DELETE CASCADE DEFERRABLE INITIALLY DEFERRED;").toList] ∧
    quote (("orders").toList) = ("orders").toList ∧
    quote (("order").toList) = ("\"order\"").toList := by
  decide

end Oc2pg

